import Mathlib

/-!
Shallow embedding of the rtx version-resolution and plugin-execution engine
(`src/toolset/tool_version.rs`, `src/toolset/tool_version_request.rs`,
`src/toolset/tool_version_list.rs`, `src/plugins/external_plugin.rs`).

Modelling conventions:
* Rust `Result<T>` values are modelled by `Outcome`, which distinguishes
  ordinary recoverable errors (`err`, Rust `Err`) from process-aborting
  panics (`panicked`, Rust `panic!`/`unwrap` failures and debug-mode
  arithmetic underflow).  `Option` return types with `none` for a panic are
  used for plain functions that cannot return `Err` at all.
* Filesystem paths are lists of path components.
* Plugin methods that run backend scripts or touch caches are oracle fields
  of a `Plugin` record; every consultation of such a field is recorded in a
  trace of `PluginCall`s so that "never invokes any script" claims are
  about the trace, not merely about extensional behaviour.
-/

/-- result of a fallible Rust computation: `ok` models `Ok`, `err` models a
recoverable `Err`, and `panicked` models a process-aborting `panic!` (for
example a failed `unwrap` or a debug-mode integer underflow). -/
inductive Outcome (α : Type) where
  | ok (val : α)
  | err (msg : String)
  | panicked (msg : String)
deriving DecidableEq, Repr

def Outcome.map {α β : Type} (f : α → β) : Outcome α → Outcome β
  | .ok a => .ok (f a)
  | .err e => .err e
  | .panicked m => .panicked m

def Outcome.toOption {α : Type} : Outcome α → Option α
  | .ok a => some a
  | _ => none

def Outcome.isPanic {α : Type} : Outcome α → Bool
  | .panicked _ => true
  | _ => false

/-- splits a character list at the first occurrence of `sep`, returning the
parts before and after it; models Rust `str::split_once`. -/
def splitOnceChars (sep : List Char) : List Char → Option (List Char × List Char)
  | [] => if sep.isEmpty then some ([], []) else none
  | c :: rest =>
    if sep.isPrefixOf (c :: rest) then some ([], (c :: rest).drop sep.length)
    else (splitOnceChars sep rest).map (fun pr => (c :: pr.1, pr.2))

/-- models Rust `str::split_once` on strings. -/
def splitOnceStr (s pat : String) : Option (String × String) :=
  (splitOnceChars pat.data s.data).map (fun pr => (String.mk pr.1, String.mk pr.2))

/-- splits a character list on separator characters, keeping empty chunks. -/
def splitChunks (isSep : Char → Bool) : List Char → List (List Char)
  | [] => [[]]
  | c :: rest =>
    if isSep c then [] :: splitChunks isSep rest
    else match splitChunks isSep rest with
      | [] => [[c]]
      | chunk :: more => (c :: chunk) :: more

/-- numeric value of a list of decimal digit characters. -/
def digitsToNat (l : List Char) : Nat :=
  l.foldl (fun n c => n * 10 + (c.toNat - 48)) 0

/-- a version chunk parses iff it is a nonempty run of decimal digits. -/
def parseChunk (l : List Char) : Option Nat :=
  if !l.isEmpty && l.all (fun c => c.isDigit) then some (digitsToNat l) else none

/-- Modelled from the spec: the `versions` crate dependency (not under
`src/`) parses a version string into a list of chunks ("parse `W` ... and
`S` as chunked versions", "numeric chunks compared numerically").  We model
the dotted purely-numeric fragment the engine's arithmetic relies on: a
version is one or more nonempty decimal chunks separated by `.`, and
anything else fails to parse (`Version::new` returning `None`). -/
def parseVersion (s : String) : Option (List Nat) :=
  (splitChunks (fun c => c == '.') s.data).mapM parseChunk

/-- renders numeric chunks back to a dotted version string, modelling
`Version::to_string` on the purely numeric fragment. -/
def renderVersion (chunks : List Nat) : String :=
  String.intercalate "." (chunks.map (fun n => toString n))

/-- translation of `version_sub` (src/toolset/tool_version.rs:180).  The
Rust function calls `Version::new(..).unwrap()` on both arguments, pops
chunks of `orig` until it is no longer than `sub`, then replaces each
remaining chunk `i` by `orig[i] - sub[i]` (`u32` subtraction, which panics
on underflow in debug builds) and re-renders the result.  `none` models a
panic: it covers the `unwrap` of a failed parse and the underflowing
subtraction; there is no `Err` path at all. -/
def version_sub (orig sub : String) : Option String :=
  match parseVersion orig, parseVersion sub with
  | some o, some s =>
    let t := o.take s.length
    if (t.zip s).any (fun pr => pr.1 < pr.2) then none
    else some (renderVersion ((t.zip s).map (fun pr => pr.1 - pr.2)))
  | _, _ => none

/-- translation of `ToolVersionRequest` (src/toolset/tool_version_request.rs:10);
`PluginName` is a string and `PathBuf` is modelled as a string. -/
inductive ToolVersionRequest where
  | Version (plugin : String) (v : String)
  | Prefix (plugin : String) (p : String)
  | Ref (plugin : String) (r : String)
  | Path (plugin : String) (p : String)
  | System (plugin : String)
deriving DecidableEq, Repr

/-- translation of `ToolVersionRequest::new` (src/toolset/tool_version_request.rs:19).
The Rust constructor matches `s.split_once(':')` against the schemes
`ref`/`prefix`/`path`, builds `System`/`Version` when there is no colon, and
`panic!`s on any other scheme; `none` models that panic. -/
def ToolVersionRequest.new (plugin_name : String) (s : String) : Option ToolVersionRequest :=
  match splitOnceStr s ":" with
  | some ("ref", r) => some (.Ref plugin_name r)
  | some ("prefix", p) => some (.Prefix plugin_name p)
  | some ("path", p) => some (.Path plugin_name p)
  | none => some (if s == "system" then .System plugin_name else .Version plugin_name s)
  | some _ => none

/-- translation of `ToolVersionRequest::plugin_name` (src/toolset/tool_version_request.rs:35). -/
def ToolVersionRequest.plugin_name : ToolVersionRequest → String
  | .Version p _ => p
  | .Prefix p _ => p
  | .Ref p _ => p
  | .Path p _ => p
  | .System p => p

/-- translation of `ToolVersionRequest::version` (src/toolset/tool_version_request.rs:45). -/
def ToolVersionRequest.version : ToolVersionRequest → String
  | .Version _ v => v
  | .Prefix _ p => "prefix-" ++ p
  | .Ref _ r => "ref-" ++ r
  | .Path _ p => "path-" ++ p
  | .System _ => "system"

/-- replaces the plugin-name component of a request, leaving the payload
unchanged; used to state that the `Ord` instance ignores the plugin name. -/
def ToolVersionRequest.setPluginName (n : String) : ToolVersionRequest → ToolVersionRequest
  | .Version _ v => .Version n v
  | .Prefix _ p => .Prefix n p
  | .Ref _ r => .Ref n r
  | .Path _ p => .Path n p
  | .System _ => .System n

/-- lexicographic three-way comparison of character lists. -/
def lexCompare : List Char → List Char → Ordering
  | [], [] => .eq
  | [], _ :: _ => .lt
  | _ :: _, [] => .gt
  | a :: as, b :: bs => if a < b then .lt else if b < a then .gt else lexCompare as bs

/-- models Rust `String::cmp`: lexicographic byte order, which on UTF-8
encoded strings coincides with lexicographic order on code points. -/
def stringCmp (a b : String) : Ordering :=
  lexCompare a.data b.data

/-- translation of `Ord for ToolVersionRequest` (src/toolset/tool_version_request.rs:72):
`self.version().cmp(&other.version())`. -/
def tvrCmp (a b : ToolVersionRequest) : Ordering :=
  stringCmp a.version b.version

/-- translation of `ToolVersionOptions` (a `BTreeMap<String, String>`),
modelled as an ordered association list. -/
abbrev ToolVersionOptions := List (String × String)

/-- models a plugin-call effect: every consultation of a plugin method (all
of which may run backend scripts or read script-backed caches) or of the
filesystem by the resolution engine. -/
inductive PluginCall where
  | resolveAlias (tok : String)
  | latestInstalledVersion
  | latestVersion (query : Option String)
  | listInstalledVersionsMatching (tok : String)
  | listVersionsMatching (tok : String)
  | canonicalize (p : String)
deriving DecidableEq, Repr

/-- models the plugin surface consulted by the resolution engine
(`Plugins`/`Tool` and `Config::resolve_alias`; the method bodies live
outside `src/`, so each script-backed method is an oracle field whose
result is unconstrained).  `isInstalled` models `Plugin::is_installed`,
`installExists v` models `dirs::INSTALLS.join(name).join(v).exists() &&
!is_runtime_symlink(..)`, and `canonicalize` models `fs::canonicalize`. -/
structure Plugin where
  name : String
  isInstalled : Bool
  resolveAlias : String → Outcome String
  latestInstalledVersion : Outcome (Option String)
  latestVersion : Option String → Outcome (Option String)
  listInstalledVersionsMatching : String → Outcome (List String)
  remoteVersions : Outcome (List String)
  installExists : String → Bool
  canonicalize : String → Outcome String

/-- splits a version string into dot/hyphen-delimited chunks, per the
spec's version matching rule. -/
def versionChunks (s : String) : List (List Char) :=
  splitChunks (fun c => c == '.' || c == '-') s.data

/-- Modelled from the spec: `Tool::list_versions_matching` is not under
`src/`; per the spec a candidate matches a prefix token component-wise on
dot/hyphen-delimited chunks, so the matching versions are the remote
versions whose chunk list extends the token's chunk list. -/
def versionMatches (tok candidate : String) : Bool :=
  (versionChunks tok).isPrefixOf (versionChunks candidate)

/-- Modelled from the spec: the plugin's `list_versions_matching` filters
the (cached) remote version list by the matching rule, propagating the
fetch failure if the list is unavailable. -/
def list_versions_matching (p : Plugin) (tok : String) : Outcome (List String) :=
  Outcome.map (fun vs => vs.filter (fun v => versionMatches tok v)) p.remoteVersions

/-- resolution monad: an `Outcome` together with the trace of plugin-call
effects performed, in order. -/
def ResM (α : Type) : Type := Outcome α × List PluginCall

instance : Monad ResM where
  pure a := (.ok a, [])
  bind x f :=
    match x with
    | (.ok a, l) =>
      match f a with
      | (r, l2) => (r, l ++ l2)
    | (.err e, l) => (.err e, l)
    | (.panicked m, l) => (.panicked m, l)

/-- performs one plugin call, recording it in the trace. -/
def ResM.call {α : Type} (c : PluginCall) (o : Outcome α) : ResM α := (o, [c])

/-- models a Rust `panic!` inside the resolution engine. -/
def ResM.panic {α : Type} (m : String) : ResM α := (.panicked m, [])

/-- models `dirs::INSTALLS`. -/
def installsRoot : List String := ["installs"]

/-- models `dirs::CACHE`. -/
def cacheRoot : List String := ["cache"]

/-- models `dirs::DOWNLOADS`. -/
def downloadsRoot : List String := ["downloads"]

/-- Modelled from the spec: `crate::hash::hash_to_str` (not under `src/`)
renders a deterministic hash of a string; the claims only rely on it being
a deterministic function, so a simple polynomial hash stands in. -/
def hash_to_str (s : String) : String :=
  toString (s.data.foldl (fun h c => (h * 31 + c.toNat) % 4294967296) 7)

/-- the path-safe pathname computed inside `ToolVersion::new`
(src/toolset/tool_version.rs:29): exact version string for `Version`,
`prefix-<p>`, `ref-<r>`, `path-<hash>`, `system`. -/
def pathname : ToolVersionRequest → String
  | .Version _ v => v
  | .Prefix _ p => "prefix-" ++ p
  | .Ref _ r => "ref-" ++ r
  | .Path _ p => "path-" ++ hash_to_str p
  | .System _ => "system"

/-- translation of `ToolVersion` (src/toolset/tool_version.rs:17). -/
structure ToolVersion where
  request : ToolVersionRequest
  plugin_name : String
  version : String
  install_path : List String
  cache_path : List String
  download_path : List String
  opts : ToolVersionOptions
deriving DecidableEq, Repr

/-- translation of `ToolVersion::new` (src/toolset/tool_version.rs:28). -/
def ToolVersion.new (p : Plugin) (request : ToolVersionRequest) (opts : ToolVersionOptions) (version : String) : ToolVersion :=
  let pn := pathname request
  { request := request
    plugin_name := p.name
    version := version
    install_path := installsRoot ++ [p.name, pn]
    cache_path := cacheRoot ++ [p.name, pn]
    download_path := downloadsRoot ++ [p.name, pn]
    opts := opts }

/-- translation of `ToolVersion::resolve_ref` (src/toolset/tool_version.rs:151). -/
def ToolVersion.resolve_ref (p : Plugin) (r : String) (opts : ToolVersionOptions) : ToolVersion :=
  let request := ToolVersionRequest.Ref p.name r
  ToolVersion.new p request opts request.version

/-- translation of `ToolVersion::resolve_path` (src/toolset/tool_version.rs:160). -/
def ToolVersion.resolve_path (p : Plugin) (pa : String) (opts : ToolVersionOptions) : ResM ToolVersion := do
  let pa ← ResM.call (.canonicalize pa) (p.canonicalize pa)
  let request := ToolVersionRequest.Path p.name pa
  pure (ToolVersion.new p request opts request.version)

/-- translation of `ToolVersion::resolve_prefix` (src/toolset/tool_version.rs:135):
fetch the versions matching the prefix and use the last match, falling back
to the prefix itself when nothing matches. -/
def ToolVersion.resolve_prefix (p : Plugin) (request : ToolVersionRequest) (pre : String) (opts : ToolVersionOptions) : ResM ToolVersion := do
  let ms ← ResM.call (.listVersionsMatching pre) (list_versions_matching p pre)
  pure (ToolVersion.new p request opts (ms.getLast?.getD pre))

/-- translation of `ToolVersion::resolve_bang` (src/toolset/tool_version.rs:115).
`v.split_once("!-").unwrap()`, resolution of the wanted part (`latest`
through the plugin, raw `unwrap` if the plugin has no latest version, alias
table otherwise), `version_sub`, then `latest_version(Some(target))`.  A
`version_sub` panic propagates as a panic: nothing catches it. -/
def ToolVersion.resolve_bang (p : Plugin) (request : ToolVersionRequest) (v : String) (opts : ToolVersionOptions) : ResM (Option ToolVersion) := do
  match splitOnceStr v "!-" with
  | none => ResM.panic "called `Option::unwrap()` on a `None` value"
  | some (wanted, minus) =>
    let wanted ←
      if wanted == "latest" then do
        let lw ← ResM.call (.latestVersion none) (p.latestVersion none)
        match lw with
        | some w => pure w
        | none => ResM.panic "called `Option::unwrap()` on a `None` value"
      else ResM.call (.resolveAlias wanted) (p.resolveAlias wanted)
    match version_sub wanted minus with
    | none => ResM.panic "version_sub: malformed version or underflow"
    | some target => do
      let lv ← ResM.call (.latestVersion (some target)) (p.latestVersion (some target))
      match lv with
      | some w => pure (some (ToolVersion.new p request opts w))
      | none => pure none

/-- step of `resolve_version` after the exact-match attempts
(src/toolset/tool_version.rs:102): remote exact match, then bang
resolution when `v` contains `!-`, then prefix resolution. -/
def resolveVersionRemoteMatch (p : Plugin) (request : ToolVersionRequest) (v : String) (opts : ToolVersionOptions) : ResM ToolVersion := do
  let ms ← ResM.call (.listVersionsMatching v) (list_versions_matching p v)
  if ms.contains v then pure (ToolVersion.new p request opts v)
  else if (splitOnceStr v "!-").isSome then do
    let tv ← ToolVersion.resolve_bang p request v opts
    match tv with
    | some tv => pure tv
    | none => ToolVersion.resolve_prefix p request v opts
  else ToolVersion.resolve_prefix p request v opts

/-- step of `resolve_version` checking installed versions for an exact
match (src/toolset/tool_version.rs:96). -/
def resolveVersionInstalledMatch (p : Plugin) (request : ToolVersionRequest) (latestVersions : Bool) (v : String) (opts : ToolVersionOptions) : ResM ToolVersion := do
  if !latestVersions then do
    let ms ← ResM.call (.listInstalledVersionsMatching v) (p.listInstalledVersionsMatching v)
    if ms.contains v then pure (ToolVersion.new p request opts v)
    else resolveVersionRemoteMatch p request v opts
  else resolveVersionRemoteMatch p request v opts

/-- step of `resolve_version` for `v == "latest"` falling through to the
plugin's remote latest version (src/toolset/tool_version.rs:92). -/
def resolveVersionLatestRemote (p : Plugin) (request : ToolVersionRequest) (latestVersions : Bool) (v : String) (opts : ToolVersionOptions) : ResM ToolVersion := do
  let lv ← ResM.call (.latestVersion none) (p.latestVersion none)
  match lv with
  | some w => pure (ToolVersion.new p request opts w)
  | none => resolveVersionInstalledMatch p request latestVersions v opts

/-- step of `resolve_version` handling `v == "latest"`
(src/toolset/tool_version.rs:86). -/
def resolveVersionLatest (p : Plugin) (request : ToolVersionRequest) (latestVersions : Bool) (v : String) (opts : ToolVersionOptions) : ResM ToolVersion := do
  if v == "latest" then
    if !latestVersions then do
      let li ← ResM.call .latestInstalledVersion p.latestInstalledVersion
      match li with
      | some w => pure (ToolVersion.new p request opts w)
      | none => resolveVersionLatestRemote p request latestVersions v opts
    else resolveVersionLatestRemote p request latestVersions v opts
  else resolveVersionInstalledMatch p request latestVersions v opts

/-- translation of `ToolVersion::resolve_version`
(src/toolset/tool_version.rs:56): alias resolution, redispatch on embedded
`ref:`/`path:`/`prefix:` sub-syntax, the installed-directory fast path, and
the fall-through chain of the remaining steps. -/
def ToolVersion.resolve_version (p : Plugin) (request : ToolVersionRequest) (latestVersions : Bool) (v : String) (opts : ToolVersionOptions) : ResM ToolVersion := do
  let v ← ResM.call (.resolveAlias v) (p.resolveAlias v)
  match splitOnceStr v ":" with
  | some ("ref", r) => pure (ToolVersion.resolve_ref p r opts)
  | some ("path", pa) => ToolVersion.resolve_path p pa opts
  | some ("prefix", pre) => ToolVersion.resolve_prefix p request pre opts
  | _ =>
    if p.installExists v then pure (ToolVersion.new p request opts v)
    else resolveVersionLatest p request latestVersions v opts

/-- translation of `ToolVersion::resolve` (src/toolset/tool_version.rs:47):
dispatch on the request variant; `Ref`, `Path` and `System` requests are
built directly from `request.version()` with no plugin interaction. -/
def ToolVersion.resolve (p : Plugin) (request : ToolVersionRequest) (opts : ToolVersionOptions) (latestVersions : Bool) : ResM ToolVersion :=
  match request with
  | .Version _ v => ToolVersion.resolve_version p request latestVersions v opts
  | .Prefix _ pre => ToolVersion.resolve_prefix p request pre opts
  | _ => pure (ToolVersion.new p request opts request.version)

/-- Modelled from the spec: `ToolSource` (the enum lives outside `src/`)
identifies where a requirement came from. -/
inductive ToolSource where
  | Argument
  | File (path : String)
  | Environment
deriving DecidableEq, Repr

/-- translation of `ToolVersionList` (src/toolset/tool_version_list.rs:8). -/
structure ToolVersionList where
  plugin_name : String
  versions : List ToolVersion
  requests : List (ToolVersionRequest × ToolVersionOptions)
  source : ToolSource
deriving DecidableEq, Repr

/-- translation of `ToolVersionList::new` (src/toolset/tool_version_list.rs:16). -/
def ToolVersionList.new (plugin_name : String) (source : ToolSource) : ToolVersionList :=
  { plugin_name := plugin_name, versions := [], requests := [], source := source }

/-- models the `config.plugins` map consulted by `ToolVersionList::resolve`. -/
structure Config where
  plugins : List (String × Plugin)

/-- models `config.plugins.get(&name)`. -/
def Config.getPlugin (cfg : Config) (name : String) : Option Plugin :=
  (cfg.plugins.find? (fun pr => pr.1 == name)).map (fun pr => pr.2)

/-- loop body of `ToolVersionList::resolve` (src/toolset/tool_version_list.rs:32):
successes are pushed onto `versions`, errors are logged as warnings and
skipped; a panic inside a resolution aborts the whole process (`none`). -/
def resolveRequests (p : Plugin) (latestVersions : Bool) (reqs : List (ToolVersionRequest × ToolVersionOptions)) (acc : List ToolVersion) : Option (List ToolVersion) :=
  match reqs with
  | [] => some acc
  | (r, o) :: rest =>
    match (ToolVersion.resolve p r o latestVersions).1 with
    | .ok v => resolveRequests p latestVersions rest (acc ++ [v])
    | .err _ => resolveRequests p latestVersions rest acc
    | .panicked _ => none

/-- translation of `ToolVersionList::resolve` (src/toolset/tool_version_list.rs:24):
an absent or not-installed plugin is logged and skipped, otherwise each
request resolves independently. -/
def ToolVersionList.resolve (cfg : Config) (tvl : ToolVersionList) (latestVersions : Bool) : Option ToolVersionList :=
  match cfg.getPlugin tvl.plugin_name with
  | some p =>
    if p.isInstalled then
      match resolveRequests p latestVersions tvl.requests tvl.versions with
      | some vs => some { tvl with versions := vs }
      | none => none
    else some tvl
  | none => some tvl

/-- translation of `EnvDiffOperation` (src/env_diff.rs, consumed in
src/plugins/external_plugin.rs:223). -/
inductive EnvDiffOperation where
  | Add (key : String) (value : String)
  | Change (key : String) (value : String)
  | Remove (key : String)
deriving DecidableEq, Repr

/-- the filter inside `ExternalPlugin::fetch_exec_env`
(src/plugins/external_plugin.rs:220): keep `Add` and `Change` patches,
discard everything else. -/
def keepAddChange (patches : List EnvDiffOperation) : List (String × String) :=
  patches.filterMap (fun op =>
    match op with
    | .Add k v => some (k, v)
    | .Change k v => some (k, v)
    | .Remove _ => none)

/-- models a side effect of `ExternalPlugin::latest_stable_version`:
running a backend subprocess, or reading/writing the latest-stable cache. -/
inductive PluginEffect where
  | subprocess
  | cacheRead
  | cacheWrite
deriving DecidableEq, Repr

/-- models the `ExternalPlugin` state consulted by `latest_stable_version`
and `exec_env` (src/plugins/external_plugin.rs): which scripts exist, the
current contents of the script-backed caches, and the results the backend
scripts would produce if run. -/
structure ExternalPlugin where
  name : String
  hasLatestStableScript : Bool
  latestStableCache : Option (Option String)
  fetchLatestStable : Outcome (Option String)
  hasExecEnvScript : Bool
  execEnvCache : Option (List (String × String))
  execEnvDiff : Outcome (List EnvDiffOperation)

/-- translation of `ExternalPlugin::latest_stable_version`
(src/plugins/external_plugin.rs:321): without a `latest-stable` script the
answer is `Ok(None)` before any cache or subprocess is touched; otherwise
the cache is consulted and the script run on a miss, wrapping a script
failure in a descriptive error. -/
def ExternalPlugin.latest_stable_version (p : ExternalPlugin) : Outcome (Option String) × List PluginEffect :=
  if !p.hasLatestStableScript then (.ok none, [])
  else
    match p.latestStableCache with
    | some v => (.ok v, [.cacheRead])
    | none =>
      match p.fetchLatestStable with
      | .ok v => (.ok v, [.cacheRead, .subprocess, .cacheWrite])
      | .err e => (.err ("Failed fetching latest stable version for plugin " ++ p.name ++ ": " ++ e), [.cacheRead, .subprocess])
      | .panicked m => (.panicked m, [.cacheRead, .subprocess])

/-- translation of `ExternalPlugin::fetch_exec_env`
(src/plugins/external_plugin.rs:217): run the env diff and keep only the
`Add`/`Change` patches. -/
def ExternalPlugin.fetch_exec_env (p : ExternalPlugin) : Outcome (List (String × String)) :=
  Outcome.map keepAddChange p.execEnvDiff

/-- translation of `ExternalPlugin::exec_env`
(src/plugins/external_plugin.rs:569): `System` requests and plugins without
an `exec-env` script (or re-entrant script execution, `__RTX_SCRIPT`) get
the empty mapping; otherwise the per-tool-version cache is consulted and
`fetch_exec_env` runs on a miss. -/
def ExternalPlugin.exec_env (p : ExternalPlugin) (rtxScript : Bool) (req : ToolVersionRequest) : Outcome (List (String × String)) :=
  match req with
  | .System _ => .ok []
  | _ =>
    if !p.hasExecEnvScript || rtxScript then .ok []
    else
      match p.execEnvCache with
      | some m => .ok m
      | none => p.fetch_exec_env

/-! ## Shared sample data and helper lemmas -/

/-- concrete plugin used to evaluate the theorems on the inputs named by the
spec (modelled after the test fixture plugin `dummy`): no aliases, nothing
installed, remote versions `1.2.0`, `1.2.5`, `1.3.0`. -/
def dummyPlugin : Plugin :=
  { name := "dummy"
    isInstalled := true
    resolveAlias := fun s => .ok s
    latestInstalledVersion := .ok none
    latestVersion := fun _ => .ok none
    listInstalledVersionsMatching := fun _ => .ok []
    remoteVersions := .ok ["1.2.0", "1.2.5", "1.3.0"]
    installExists := fun _ => false
    canonicalize := fun s => .ok s }

theorem ResM.bind_ok {α β : Type} (a : α) (l : List PluginCall) (f : α → ResM β) :
    (bind ((.ok a, l) : ResM α) f : ResM β) = ((f a).1, l ++ (f a).2) := rfl

theorem ResM.bind_err {α β : Type} (e : String) (l : List PluginCall) (f : α → ResM β) :
    (bind ((.err e, l) : ResM α) f : ResM β) = (.err e, l) := rfl

theorem ResM.bind_panicked {α β : Type} (m : String) (l : List PluginCall) (f : α → ResM β) :
    (bind ((.panicked m, l) : ResM α) f : ResM β) = (.panicked m, l) := rfl

/-! ## Claims -/

/-- C1: `version_sub` truncates the first version to the second's number of
components and subtracts component-wise; in particular
`version_sub "18.2.3" "2" = "16"` and `version_sub "18.2.3" "0.1" = "18.1"`. -/
theorem version_sub_truncates_and_subtracts :
    (∀ (orig sub : String) (o s : List Nat),
        parseVersion orig = some o → parseVersion sub = some s →
        (∀ pr ∈ (o.take s.length).zip s, pr.2 ≤ pr.1) →
        version_sub orig sub
          = some (renderVersion (((o.take s.length).zip s).map (fun pr => pr.1 - pr.2))))
    ∧ version_sub "18.2.3" "2" = some "16"
    ∧ version_sub "18.2.3" "0.1" = some "18.1" := by
  refine ⟨?_, by decide, by decide⟩
  intro orig sub o s ho hs hno
  have hany : ((o.take s.length).zip s).any (fun pr => pr.1 < pr.2) = false := by
    rw [List.any_eq_false]
    intro pr hpr
    simpa using Nat.not_lt.mpr (hno pr hpr)
  simp [version_sub, ho, hs, hany]

/-- witness for C1 at the spec's own example `("18.2.3", "2")`. -/
theorem version_sub_truncates_and_subtracts_witness :
    (parseVersion "18.2.3" = some [18, 2, 3] ∧ parseVersion "2" = some [2]
      ∧ ∀ pr ∈ (([18, 2, 3].take 1).zip [2] : List (Nat × Nat)), pr.2 ≤ pr.1)
    ∧ version_sub "18.2.3" "2"
        = some (renderVersion ((([18, 2, 3].take 1).zip [2]).map (fun pr => pr.1 - pr.2))) :=
  ⟨⟨by decide, by decide, by decide⟩,
   version_sub_truncates_and_subtracts.1 "18.2.3" "2" [18, 2, 3] [2] (by decide) (by decide)
     (by decide)⟩

/-- C2 counterexample: at the concrete malformed specifier `x y!-1` (whose
wanted part `x y` is not a well-formed version), bang resolution panics —
`Outcome.panicked`, which models a process abort — instead of producing the
recoverable `Outcome.err` that the claim says the caller propagates. -/
theorem resolve_bang_crashes_on_malformed_version :
    (ToolVersion.resolve_bang dummyPlugin (.Version "dummy" "x y!-1") "x y!-1" []).1
      = .panicked "version_sub: malformed version or underflow" := by
  decide

/-- C2 (amended): when either string fails to parse as a version, or the
component-wise subtraction underflows, `version_sub` panics (it has no
error path at all), and `resolve_bang` does not catch the panic: the
process crashes instead of propagating an unresolved-request error. -/
theorem version_sub_panics_and_resolve_bang_propagates :
    (∀ orig sub : String, parseVersion orig = none → version_sub orig sub = none)
    ∧ (∀ orig sub : String, parseVersion sub = none → version_sub orig sub = none)
    ∧ (∀ (orig sub : String) (o s : List Nat) (pr : Nat × Nat),
        parseVersion orig = some o → parseVersion sub = some s →
        pr ∈ (o.take s.length).zip s → pr.1 < pr.2 →
        version_sub orig sub = none)
    ∧ (∀ (p : Plugin) (request : ToolVersionRequest) (v wanted minus w : String)
          (opts : ToolVersionOptions),
        splitOnceStr v "!-" = some (wanted, minus) →
        wanted ≠ "latest" →
        p.resolveAlias wanted = .ok w →
        version_sub w minus = none →
        (ToolVersion.resolve_bang p request v opts).1
          = .panicked "version_sub: malformed version or underflow") := by
  refine ⟨?_, ?_, ?_, ?_⟩
  · intro orig sub h
    cases hs : parseVersion sub <;> simp [version_sub, h, hs]
  · intro orig sub h
    cases ho : parseVersion orig <;> simp [version_sub, h, ho]
  · intro orig sub o s pr ho hs hmem hlt
    have hany : ((o.take s.length).zip s).any (fun q => q.1 < q.2) = true := by
      rw [List.any_eq_true]
      exact ⟨pr, hmem, by simpa using hlt⟩
    simp [version_sub, ho, hs, hany]
  · intro p request v wanted minus w opts hsplit hne halias hvs
    have hbeq : (wanted == "latest") = false := by
      simpa using hne
    simp [ToolVersion.resolve_bang, hsplit, hbeq, ResM.call, halias, hvs, ResM.panic,
      ResM.bind_ok, ResM.bind_err, ResM.bind_panicked]

/-- witness for C2's amended theorem at the counterexample input. -/
theorem version_sub_panics_and_resolve_bang_propagates_witness :
    (parseVersion "x y" = none ∧ version_sub "x y" "1" = none)
    ∧ (ToolVersion.resolve_bang dummyPlugin (.Version "dummy" "x y!-1") "x y!-1" []).1
        = .panicked "version_sub: malformed version or underflow" :=
  ⟨⟨by decide, version_sub_panics_and_resolve_bang_propagates.1 "x y" "1" (by decide)⟩,
   version_sub_panics_and_resolve_bang_propagates.2.2.2 dummyPlugin
     (.Version "dummy" "x y!-1") "x y!-1" "x y" "1" "x y" [] (by decide)
     (by decide) (by decide)
     (version_sub_panics_and_resolve_bang_propagates.1 "x y" "1" (by decide))⟩

/-- C3: prefix resolution filters the plugin's version list by the prefix
matching rule and uses the last match, falling back to the prefix string
itself when nothing matches; `prefix:1.2` against
`["1.2.0", "1.2.5", "1.3.0"]` resolves to `1.2.5`. -/
theorem resolve_prefix_last_match_or_literal :
    (∀ (p : Plugin) (request : ToolVersionRequest) (pre : String)
        (opts : ToolVersionOptions) (vs : List String),
        p.remoteVersions = .ok vs →
        (ToolVersion.resolve_prefix p request pre opts).1
          = .ok (ToolVersion.new p request opts
              ((vs.filter (fun v => versionMatches pre v)).getLast?.getD pre)))
    ∧ (∀ (p : Plugin) (request : ToolVersionRequest) (pre : String)
        (opts : ToolVersionOptions) (vs : List String),
        p.remoteVersions = .ok vs →
        vs.filter (fun v => versionMatches pre v) = [] →
        (ToolVersion.resolve_prefix p request pre opts).1
          = .ok (ToolVersion.new p request opts pre))
    ∧ (ToolVersion.resolve_prefix dummyPlugin (.Prefix "dummy" "1.2") "1.2" []).1
        = .ok (ToolVersion.new dummyPlugin (.Prefix "dummy" "1.2") [] "1.2.5")
    ∧ (ToolVersion.new dummyPlugin (.Prefix "dummy" "1.2") [] "1.2.5").version = "1.2.5" := by
  have h1 : ∀ (p : Plugin) (request : ToolVersionRequest) (pre : String)
      (opts : ToolVersionOptions) (vs : List String),
      p.remoteVersions = .ok vs →
      (ToolVersion.resolve_prefix p request pre opts).1
        = .ok (ToolVersion.new p request opts
            ((vs.filter (fun v => versionMatches pre v)).getLast?.getD pre)) := by
    intro p request pre opts vs h
    simp [ToolVersion.resolve_prefix, list_versions_matching, h, Outcome.map, ResM.call,
      ResM.bind_ok]
    rfl
  refine ⟨h1, ?_, by decide, by decide⟩
  intro p request pre opts vs h hfilter
  rw [h1 p request pre opts vs h, hfilter]
  rfl

/-- witness for C3 at the spec's end-to-end scenario. -/
theorem resolve_prefix_last_match_or_literal_witness :
    dummyPlugin.remoteVersions = .ok ["1.2.0", "1.2.5", "1.3.0"]
    ∧ (ToolVersion.resolve_prefix dummyPlugin (.Prefix "dummy" "1.2") "1.2" []).1
        = .ok (ToolVersion.new dummyPlugin (.Prefix "dummy" "1.2") []
            (((["1.2.0", "1.2.5", "1.3.0"].filter
                (fun v => versionMatches "1.2" v)).getLast?).getD "1.2")) :=
  ⟨rfl,
   resolve_prefix_last_match_or_literal.1 dummyPlugin (.Prefix "dummy" "1.2") "1.2" []
     ["1.2.0", "1.2.5", "1.3.0"] rfl⟩

/-- C4: resolving a `System` request performs no plugin call at all (the
effect trace is empty, so in particular no plugin script runs) and yields a
`ToolVersion` whose version string is exactly `"system"`. -/
theorem resolve_system_no_calls_version_system :
    ∀ (p : Plugin) (n : String) (opts : ToolVersionOptions) (latestVersions : Bool),
      ToolVersion.resolve p (.System n) opts latestVersions
          = (.ok (ToolVersion.new p (.System n) opts "system"), [])
      ∧ (ToolVersion.new p (.System n) opts "system").version = "system" := by
  intro p n opts latestVersions
  exact ⟨rfl, rfl⟩

/-- C5: the pathname encoding of a request is exactly the spec's table
(exact version; `prefix-<p>`; `ref-<r>`; `path-<hash>`; `system`), and the
install/cache/download paths of a constructed `ToolVersion` depend only on
the plugin name and that pathname, so two requests rendering to the same
pathname get the same install location. -/
theorem pathname_determines_install_paths :
    (∀ n v, pathname (.Version n v) = v)
    ∧ (∀ n p, pathname (.Prefix n p) = "prefix-" ++ p)
    ∧ (∀ n r, pathname (.Ref n r) = "ref-" ++ r)
    ∧ (∀ n p, pathname (.Path n p) = "path-" ++ hash_to_str p)
    ∧ (∀ n, pathname (.System n) = "system")
    ∧ (∀ (pl : Plugin) (r1 r2 : ToolVersionRequest) (o1 o2 : ToolVersionOptions)
          (v1 v2 : String),
        pathname r1 = pathname r2 →
        (ToolVersion.new pl r1 o1 v1).install_path = (ToolVersion.new pl r2 o2 v2).install_path
        ∧ (ToolVersion.new pl r1 o1 v1).cache_path = (ToolVersion.new pl r2 o2 v2).cache_path
        ∧ (ToolVersion.new pl r1 o1 v1).download_path
            = (ToolVersion.new pl r2 o2 v2).download_path) := by
  refine ⟨fun n v => rfl, fun n p => rfl, fun n r => rfl, fun n p => rfl, fun n => rfl, ?_⟩
  intro pl r1 r2 o1 o2 v1 v2 h
  refine ⟨?_, ?_, ?_⟩ <;> simp [ToolVersion.new, h]

/-- witness for C5: the requests `Version "prefix-1.2"` and `Prefix "1.2"`
render to the same pathname and therefore share all three locations. -/
theorem pathname_determines_install_paths_witness :
    pathname (.Version "dummy" "prefix-1.2") = pathname (.Prefix "dummy" "1.2")
    ∧ ((ToolVersion.new dummyPlugin (.Version "dummy" "prefix-1.2") [] "1.2.5").install_path
          = (ToolVersion.new dummyPlugin (.Prefix "dummy" "1.2") [] "1.2.5").install_path
        ∧ (ToolVersion.new dummyPlugin (.Version "dummy" "prefix-1.2") [] "1.2.5").cache_path
          = (ToolVersion.new dummyPlugin (.Prefix "dummy" "1.2") [] "1.2.5").cache_path
        ∧ (ToolVersion.new dummyPlugin (.Version "dummy" "prefix-1.2") [] "1.2.5").download_path
          = (ToolVersion.new dummyPlugin (.Prefix "dummy" "1.2") [] "1.2.5").download_path) :=
  ⟨by decide,
   pathname_determines_install_paths.2.2.2.2.2 dummyPlugin (.Version "dummy" "prefix-1.2")
     (.Prefix "dummy" "1.2") [] [] "1.2.5" "1.2.5" (by decide)⟩

theorem resolveRequests_of_no_panic (p : Plugin) (lv : Bool) :
    ∀ (reqs : List (ToolVersionRequest × ToolVersionOptions)) (acc : List ToolVersion),
      (∀ ro ∈ reqs, ((ToolVersion.resolve p ro.1 ro.2 lv).1).isPanic = false) →
      resolveRequests p lv reqs acc
        = some (acc ++ reqs.filterMap (fun ro => ((ToolVersion.resolve p ro.1 ro.2 lv).1).toOption)) := by
  intro reqs
  induction reqs with
  | nil => intro acc _; simp [resolveRequests]
  | cons ro rest ih =>
    intro acc hno
    have hro := hno ro (by simp)
    have hrest : ∀ ro ∈ rest, ((ToolVersion.resolve p ro.1 ro.2 lv).1).isPanic = false :=
      fun x hx => hno x (by simp [hx])
    obtain ⟨r, o⟩ := ro
    cases hres : (ToolVersion.resolve p r o lv).1 with
    | ok v =>
      simp [resolveRequests, hres, ih (acc ++ [v]) hrest, Outcome.toOption]
    | err e =>
      simp [resolveRequests, hres, ih acc hrest, Outcome.toOption]
    | panicked m =>
      exact absurd hro (by simp [hres, Outcome.isPanic])

/-- C6: resolving a `ToolVersionList` against an absent or not-installed
plugin leaves the list unchanged (in particular, a freshly constructed
list's `versions` stays empty) and reports no error; otherwise the
requests resolve independently, successes appended in request order, and a
failed request is skipped without blocking its siblings. -/
theorem tool_version_list_resolve_spec :
    (∀ (n : String) (src : ToolSource), (ToolVersionList.new n src).versions = [])
    ∧ (∀ (cfg : Config) (tvl : ToolVersionList) (lv : Bool),
        cfg.getPlugin tvl.plugin_name = none →
        ToolVersionList.resolve cfg tvl lv = some tvl)
    ∧ (∀ (cfg : Config) (tvl : ToolVersionList) (lv : Bool) (p : Plugin),
        cfg.getPlugin tvl.plugin_name = some p → p.isInstalled = false →
        ToolVersionList.resolve cfg tvl lv = some tvl)
    ∧ (∀ (cfg : Config) (tvl : ToolVersionList) (lv : Bool) (p : Plugin),
        cfg.getPlugin tvl.plugin_name = some p → p.isInstalled = true →
        (∀ ro ∈ tvl.requests, ((ToolVersion.resolve p ro.1 ro.2 lv).1).isPanic = false) →
        ToolVersionList.resolve cfg tvl lv
          = some { tvl with
              versions := tvl.versions
                ++ tvl.requests.filterMap
                    (fun ro => ((ToolVersion.resolve p ro.1 ro.2 lv).1).toOption) }) := by
  refine ⟨fun n src => rfl, ?_, ?_, ?_⟩
  · intro cfg tvl lv h
    simp [ToolVersionList.resolve, h]
  · intro cfg tvl lv p h hni
    simp [ToolVersionList.resolve, h, hni]
  · intro cfg tvl lv p h hi hno
    simp [ToolVersionList.resolve, h, hi, resolveRequests_of_no_panic p lv tvl.requests tvl.versions hno]

/-- concrete configuration for the C6 witness: one installed plugin. -/
def dummyConfig : Config := { plugins := [("dummy", dummyPlugin)] }

/-- concrete request list for the C6 witness. -/
def dummyTVL : ToolVersionList :=
  { plugin_name := "dummy"
    versions := []
    requests := [(.System "dummy", []), (.Version "dummy" "1.2.5", [])]
    source := .Argument }

/-- witness for C6: both requests of the sample list resolve and are
appended in order. -/
theorem tool_version_list_resolve_spec_witness :
    (dummyConfig.getPlugin dummyTVL.plugin_name = some dummyPlugin
      ∧ dummyPlugin.isInstalled = true)
    ∧ ToolVersionList.resolve dummyConfig dummyTVL false
        = some { dummyTVL with
            versions := dummyTVL.versions
              ++ dummyTVL.requests.filterMap
                  (fun ro => ((ToolVersion.resolve dummyPlugin ro.1 ro.2 false).1).toOption) } :=
  ⟨⟨rfl, rfl⟩,
   tool_version_list_resolve_spec.2.2.2 dummyConfig dummyTVL false dummyPlugin rfl rfl
     (by decide)⟩

/-- C7: an external plugin without a `latest-stable` script answers
`Ok(None)` from `latest_stable_version` with an empty effect trace: no
subprocess runs and the latest-stable cache is neither read nor written. -/
theorem latest_stable_none_without_script :
    ∀ (n : String) (c : Option (Option String)) (f : Outcome (Option String))
      (hasExec : Bool) (ec : Option (List (String × String)))
      (d : Outcome (List EnvDiffOperation)),
      ExternalPlugin.latest_stable_version
          { name := n, hasLatestStableScript := false, latestStableCache := c,
            fetchLatestStable := f, hasExecEnvScript := hasExec, execEnvCache := ec,
            execEnvDiff := d }
        = (.ok none, []) := by
  intro n c f hasExec ec d
  rfl

/-- C8: `exec_env` returns the empty mapping for every `System` request and
for every plugin without an `exec-env` script; when the script does run,
exactly the `Add` and `Change` operations of the environment diff survive
and `Remove` operations are discarded. -/
theorem exec_env_keeps_add_change_only :
    (∀ (p : ExternalPlugin) (rtxScript : Bool) (n : String),
        p.exec_env rtxScript (.System n) = .ok [])
    ∧ (∀ (n : String) (hasLs : Bool) (c : Option (Option String))
          (f : Outcome (Option String)) (ec : Option (List (String × String)))
          (d : Outcome (List EnvDiffOperation)) (rtxScript : Bool)
          (req : ToolVersionRequest),
        ExternalPlugin.exec_env
            { name := n, hasLatestStableScript := hasLs, latestStableCache := c,
              fetchLatestStable := f, hasExecEnvScript := false, execEnvCache := ec,
              execEnvDiff := d } rtxScript req
          = .ok [])
    ∧ (∀ (n : String) (hasLs : Bool) (c : Option (Option String))
          (f : Outcome (Option String)) (pn v : String) (ps : List EnvDiffOperation),
        ExternalPlugin.exec_env
            { name := n, hasLatestStableScript := hasLs, latestStableCache := c,
              fetchLatestStable := f, hasExecEnvScript := true, execEnvCache := none,
              execEnvDiff := .ok ps } false (.Version pn v)
          = .ok (keepAddChange ps))
    ∧ (∀ (k : String) (rest : List EnvDiffOperation),
        keepAddChange (.Remove k :: rest) = keepAddChange rest)
    ∧ (∀ (ps : List EnvDiffOperation) (k v : String),
        (k, v) ∈ keepAddChange ps ↔ .Add k v ∈ ps ∨ .Change k v ∈ ps) := by
  refine ⟨fun p rs n => rfl, ?_, ?_, fun k rest => rfl, ?_⟩
  · intro n hasLs c f ec d rtxScript req
    cases req <;> rfl
  · intro n hasLs c f pn v ps
    rfl
  · intro ps k v
    induction ps with
    | nil => simp [keepAddChange]
    | cons op rest ih =>
      cases op <;> simp [keepAddChange, ih] <;>
        simp only [List.filterMap] at ih ⊢ <;> aesop

theorem lexCompare_lt_iff :
    ∀ as bs : List Char, lexCompare as bs = .lt ↔ List.Lex (fun a b : Char => a < b) as bs := by
  intro as
  induction as with
  | nil =>
    intro bs
    cases bs with
    | nil => exact ⟨(fun h => by simp [lexCompare] at h), (fun h => by cases h)⟩
    | cons b bs => exact ⟨(fun _ => List.Lex.nil), (fun _ => rfl)⟩
  | cons a as ih =>
    intro bs
    cases bs with
    | nil => exact ⟨(fun h => by simp [lexCompare] at h), (fun h => by cases h)⟩
    | cons b bs =>
      by_cases hab : a < b
      · rw [show lexCompare (a :: as) (b :: bs)
            = (if a < b then .lt else if b < a then .gt else lexCompare as bs) from rfl,
          if_pos hab]
        exact ⟨(fun _ => List.Lex.rel hab), (fun _ => rfl)⟩
      · by_cases hba : b < a
        · rw [show lexCompare (a :: as) (b :: bs)
              = (if a < b then .lt else if b < a then .gt else lexCompare as bs) from rfl,
            if_neg hab, if_pos hba]
          constructor
          · intro h; cases h
          · intro h
            cases h with
            | rel hr => exact absurd hr hab
            | cons h' => exact absurd hba (lt_irrefl a)
        · have hab' : a = b := le_antisymm (not_lt.mp hba) (not_lt.mp hab)
          subst hab'
          rw [show lexCompare (a :: as) (a :: bs)
              = (if a < a then .lt else if a < a then .gt else lexCompare as bs) from rfl,
            if_neg hab, if_neg hba]
          constructor
          · intro h; exact List.Lex.cons ((ih bs).mp h)
          · intro h
            cases h with
            | rel hr => exact absurd hr hab
            | cons h' => exact (ih bs).mpr h'

theorem lexCompare_eq_iff :
    ∀ as bs : List Char, lexCompare as bs = .eq ↔ as = bs := by
  intro as
  induction as with
  | nil =>
    intro bs
    cases bs with
    | nil => simp [lexCompare]
    | cons b bs => simp [lexCompare]
  | cons a as ih =>
    intro bs
    cases bs with
    | nil => simp [lexCompare]
    | cons b bs =>
      by_cases hab : a < b
      · rw [show lexCompare (a :: as) (b :: bs)
            = (if a < b then .lt else if b < a then .gt else lexCompare as bs) from rfl,
          if_pos hab]
        simp [ne_of_lt hab]
      · by_cases hba : b < a
        · rw [show lexCompare (a :: as) (b :: bs)
              = (if a < b then .lt else if b < a then .gt else lexCompare as bs) from rfl,
            if_neg hab, if_pos hba]
          simp [(ne_of_lt hba).symm]
        · have hab' : a = b := le_antisymm (not_lt.mp hba) (not_lt.mp hab)
          subst hab'
          rw [show lexCompare (a :: as) (a :: bs)
              = (if a < a then .lt else if a < a then .gt else lexCompare as bs) from rfl,
            if_neg hab, if_neg hba]
          simp [ih bs]

/-- C9: the `Ord` instance on requests is exactly the lexicographic order
of their rendered version strings — `tvrCmp` answers `lt` iff the rendered
strings are in strict lexicographic order, `eq` iff they are equal — and it
is insensitive to the plugin-name component. -/
theorem tvr_ord_is_rendered_version_order :
    ∀ r1 r2 : ToolVersionRequest,
      (tvrCmp r1 r2 = .lt
        ↔ List.Lex (fun a b : Char => a < b) r1.version.data r2.version.data)
      ∧ (tvrCmp r1 r2 = .eq ↔ r1.version = r2.version)
      ∧ (∀ n1 n2 : String,
          tvrCmp (r1.setPluginName n1) (r2.setPluginName n2) = tvrCmp r1 r2) := by
  have hver : ∀ (n : String) (r : ToolVersionRequest),
      (r.setPluginName n).version = r.version := by
    intro n r; cases r <;> rfl
  intro r1 r2
  refine ⟨lexCompare_lt_iff _ _, ?_, ?_⟩
  · rw [show tvrCmp r1 r2 = lexCompare r1.version.data r2.version.data from rfl,
      lexCompare_eq_iff]
    constructor
    · intro h
      cases hv1 : r1.version with
      | mk d1 =>
        cases hv2 : r2.version with
        | mk d2 => rw [hv1, hv2] at h; exact congrArg String.mk (by simpa using h)
    · intro h; rw [h]
  · intro n1 n2
    rw [show tvrCmp (r1.setPluginName n1) (r2.setPluginName n2)
        = lexCompare (r1.setPluginName n1).version.data (r2.setPluginName n2).version.data
        from rfl, hver, hver]
    rfl

/-- C10: `ToolVersionRequest::new` panics (models: `none`) on the concrete
specifier `foo:1.2`, whose scheme is none of `ref`/`prefix`/`path`, and on
every colon-free specifier it returns `System` exactly for `system` and
`Version` otherwise. -/
theorem tool_version_request_new_spec :
    ToolVersionRequest.new "node" "foo:1.2" = none
    ∧ (∀ n s : String, splitOnceStr s ":" = none →
        ToolVersionRequest.new n s
          = some (if s == "system" then .System n else .Version n s)) := by
  refine ⟨by decide, ?_⟩
  intro n s h
  unfold ToolVersionRequest.new
  rw [h]

/-- witness for C10 on the colon-free specifiers `system` and `1.2.3`. -/
theorem tool_version_request_new_spec_witness :
    (splitOnceStr "system" ":" = none ∧ splitOnceStr "1.2.3" ":" = none)
    ∧ ToolVersionRequest.new "node" "system"
        = some (if "system" == "system" then .System "node" else .Version "node" "system")
    ∧ ToolVersionRequest.new "node" "1.2.3"
        = some (if "1.2.3" == "system" then .System "node" else .Version "node" "1.2.3") :=
  ⟨⟨by decide, by decide⟩,
   tool_version_request_new_spec.2 "node" "system" (by decide),
   tool_version_request_new_spec.2 "node" "1.2.3" (by decide)⟩
